import Mathlib

/-!
Verification of the dynamic-array engine in src/src/array.c (Collections-C).

The C code is shallowly embedded: `size_t` values are natural numbers with
wrap-around made explicit through `% U64` (`sub64` models unsigned
subtraction), element handles (`void *`) are natural numbers with `0`
standing for `NULL`, and the `float exp_factor` field is modelled as an
exact rational (all claims exercise factors `0` and `2`, where `float`
arithmetic is exact; the `float` to `size_t` conversion is modelled as
rational floor reduced mod `2^64`).

Memory is explicit: an array's `buffer` is a list holding one entry per
allocated slot, so its length is the allocated capacity.  `memcpy`,
`memmove` and direct slot accesses return `none` whenever the C program
would touch memory outside the allocation, so an outer `none` in an
operation's result marks undefined behavior.  Slots obtained from
`malloc`-style allocation are filled with `0` here; the C contents are
indeterminate, and no theorem below depends on such a slot's value except
where the concrete run makes it a `calloc`-zeroed slot.

Allocator calls are fallible in C; each operation that allocates takes a
`Bool` argument telling whether that allocator call succeeds, so theorems
can quantify over allocator behavior.
-/

/-- Width of size_t: 2^64. -/
def U64 : Nat := 18446744073709551616

/-- Modelled from the spec: MAX_ELEMENTS is the implementation-defined
absolute element ceiling declared in array.h, which is not part of src/;
Collections-C defines it as (size_t) - 2, that is 2^64 - 2. -/
def MAX_ELEMENTS : Nat := U64 - 2

/-- Unsigned 64-bit subtraction with wrap-around: for a, b < U64 this is
(a + 2^64 - b) % 2^64, written in a branch form that keeps kernel and
elaborator reduction on machine-word-sized numbers. -/
def sub64 (a b : Nat) : Nat := if b ≤ a then a - b else a + (U64 - b)

/-- Model of struct array_s (array.c lines 26-35).  The allocator triple is
not represented: allocator outcomes enter as explicit Bool arguments. -/
structure ArrayS where
  size : Nat
  capacity : Nat
  exp_factor : Rat
  buffer : List Nat
deriving Repr, DecidableEq

/-- Model of ArrayConf (the fields used by array_new_conf). -/
structure ArrayConf where
  exp_factor : Rat
  capacity : Nat
deriving Repr, DecidableEq

/-- Model of ArrayIter (array.h): an array plus a current index. -/
structure ArrayIter where
  ar : ArrayS
  index : Nat
deriving Repr, DecidableEq

/-- memcpy of k element slots from the front of src into the front of dest;
none when either range leaves its allocation (undefined behavior in C). -/
def memcpyN (dest src : List Nat) (k : Nat) : Option (List Nat) :=
  if k ≤ src.length ∧ k ≤ dest.length then
    some (src.take k ++ dest.drop k)
  else none

/-- memcpy of k element slots from src starting at slot off into the front
of dest; none when either range leaves its allocation. -/
def memcpyFrom (dest src : List Nat) (off k : Nat) : Option (List Nat) :=
  if off + k ≤ src.length ∧ k ≤ dest.length then
    some ((src.drop off).take k ++ dest.drop k)
  else none

/-- memmove(&b[index+1], &b[index], count slots): shifts count slots one
slot rightward; none when the ranges leave the allocation. -/
def memmoveShiftR (b : List Nat) (index count : Nat) : Option (List Nat) :=
  if count = 0 then some b
  else if index + 1 + count ≤ b.length then
    some (b.take (index + 1) ++ (b.drop index).take count ++ b.drop (index + 1 + count))
  else none

/-- memmove(&b[index], &b[index+1], count slots): shifts count slots one
slot leftward; none when the ranges leave the allocation. -/
def memmoveShiftL (b : List Nat) (index count : Nat) : Option (List Nat) :=
  if count = 0 then some b
  else if index + 1 + count ≤ b.length then
    some (b.take index ++ (b.drop (index + 1)).take count ++ b.drop (index + count))
  else none

/-- Model of array_conf_init (array.c lines 96-103): default capacity 8,
default expansion factor 2. -/
def array_conf_init : ArrayConf :=
  { exp_factor := 2, capacity := 8 }

/-- Model of array_new_conf (array.c lines 65-89) for the run in which both
allocator calls succeed (claims quantify over successfully constructed
arrays).  Returns none both for the NULL result of the exp_factor guard and
for the division by zero the guard performs when conf.capacity = 0. -/
def array_new_conf (conf : ArrayConf) : Option ArrayS :=
  if conf.exp_factor ≤ 1 then
    some { size := 0, capacity := conf.capacity, exp_factor := 2,
           buffer := List.replicate conf.capacity 0 }
  else if conf.capacity = 0 then
    none
  else if ((MAX_ELEMENTS / conf.capacity : Nat) : Rat) ≤ conf.exp_factor then
    none
  else
    some { size := 0, capacity := conf.capacity, exp_factor := conf.exp_factor,
           buffer := List.replicate conf.capacity 0 }

/-- Model of array_new (array.c lines 45-50). -/
def array_new : Option ArrayS :=
  array_new_conf array_conf_init

/-- Value of the C expression (size_t)(capacity * exp_factor): for the
nonnegative factors the program ever stores, the truncated product
⌊capacity · f⌋ equals capacity · f.num / f.den in natural division, and the
conversion back to size_t is reduced mod 2^64. -/
def growCapacity (cap : Nat) (f : Rat) : Nat :=
  (cap * f.num.toNat / f.den) % U64

/-- Model of expand_capacity (array.c lines 599-624).  allocOk tells
whether the mem_alloc call succeeds.  Note the faithful quirks: the
capacity field is updated before the allocation is attempted, and in the
overflow-clamp branch the new buffer is allocated with the wrapped
new_capacity, not with MAX_ELEMENTS. -/
def expand_capacity (ar : ArrayS) (allocOk : Bool) : Option (Bool × ArrayS) :=
  if ar.capacity = MAX_ELEMENTS then
    some (false, ar)
  else
    let new_capacity := growCapacity ar.capacity ar.exp_factor
    let ar1 := if new_capacity ≤ ar.capacity
      then { ar with capacity := MAX_ELEMENTS }
      else { ar with capacity := new_capacity }
    if allocOk then
      match memcpyN (List.replicate new_capacity 0) ar.buffer ar.size with
      | none => none
      | some b => some (true, { ar1 with buffer := b })
    else some (false, ar1)

/-- Model of array_add (array.c lines 145-154). -/
def array_add (ar : ArrayS) (element : Nat) (allocOk : Bool) : Option (Bool × ArrayS) :=
  match (if ar.capacity ≤ ar.size then expand_capacity ar allocOk else some (true, ar)) with
  | none => none
  | some (false, ar1) => some (false, ar1)
  | some (true, ar1) =>
    if ar1.size < ar1.buffer.length then
      some (true, { ar1 with buffer := ar1.buffer.set ar1.size element,
                             size := (ar1.size + 1) % U64 })
    else none

/-- Model of array_add_at (array.c lines 170-188).  The bounds check is the
faithful unsigned comparison index > size - 1, which wraps when size = 0. -/
def array_add_at (ar : ArrayS) (element : Nat) (index : Nat) (allocOk : Bool) :
    Option (Bool × ArrayS) :=
  if sub64 ar.size 1 < index then
    some (false, ar)
  else
    match (if ar.size = ar.capacity then expand_capacity ar allocOk else some (true, ar)) with
    | none => none
    | some (false, ar1) => some (false, ar1)
    | some (true, ar1) =>
      match memmoveShiftR ar1.buffer index (sub64 ar1.size index) with
      | none => none
      | some b =>
        if index < b.length then
          some (true, { ar1 with buffer := b.set index element,
                                 size := (ar1.size + 1) % U64 })
        else none

/-- Model of array_get (array.c lines 327-333): some 0 is the NULL result
for an out-of-range index; none marks an out-of-allocation read. -/
def array_get (ar : ArrayS) (index : Nat) : Option Nat :=
  if ar.size ≤ index then some 0
  else ar.buffer.get? index

/-- Model of array_remove_at (array.c lines 255-272): the returned value is
the removed handle, or 0 (NULL) when the index is out of range.  The
faithful memmove count is size - index slots, one more than the live tail. -/
def array_remove_at (ar : ArrayS) (index : Nat) : Option (Nat × ArrayS) :=
  if ar.size ≤ index then
    some (0, ar)
  else
    match ar.buffer.get? index with
    | none => none
    | some e =>
      match (if index ≠ sub64 ar.size 1
             then memmoveShiftL ar.buffer index (sub64 ar.size index)
             else some ar.buffer) with
      | none => none
      | some b => some (e, { ar with buffer := b, size := sub64 ar.size 1 })

/-- Model of array_remove_last (array.c lines 284-287): remove_at at the
unsigned value size - 1. -/
def array_remove_last (ar : ArrayS) : Option (Nat × ArrayS) :=
  array_remove_at ar (sub64 ar.size 1)

/-- Model of array_subarray (array.c lines 403-421).  The outer Option
marks undefined behavior (the code dereferences and memcpys into the
allocator results without NULL checks); the inner Option is the returned
pointer, none standing for NULL.  The sub array struct is calloc-zeroed and
exp_factor is never assigned, so it stays 0. -/
def array_subarray (ar : ArrayS) (b e : Nat) (structAllocOk bufAllocOk : Bool) :
    Option (Option ArrayS) :=
  if e < b ∨ ar.size < e then
    some none
  else if structAllocOk = false then
    none
  else if bufAllocOk = false then
    none
  else
    let sz := ((e - b) + 1) % U64
    match memcpyFrom (List.replicate sz 0) ar.buffer b sz with
    | none => none
    | some buf => some (some { size := sz, capacity := sz, exp_factor := 0, buffer := buf })

/-- Model of the swap in the body of array_reverse: tmp = l[i];
l[i] = l[j]; l[j] = tmp; none when an index leaves the allocation. -/
def swapAt (l : List Nat) (i j : Nat) : Option (List Nat) :=
  match l.get? i, l.get? j with
  | some vi, some vj => some ((l.set i vj).set j vi)
  | _, _ => none

/-- Model of the loop of array_reverse, iterated count times with i
ascending from its argument and j descending with unsigned wrap. -/
def revLoop : List Nat → Nat → Nat → Nat → Option (List Nat)
  | buf, _, _, 0 => some buf
  | buf, i, j, Nat.succ n =>
    match swapAt buf i j with
    | none => none
    | some b => revLoop b (i + 1) (sub64 j 1) n

/-- Model of array_reverse (array.c lines 489-498): the loop runs while
i < (size - 1) / 2 in unsigned arithmetic, with j starting at size - 1. -/
def array_reverse (ar : ArrayS) : Option ArrayS :=
  let j0 := sub64 ar.size 1
  (revLoop ar.buffer 0 j0 (j0 / 2)).map (fun b => { ar with buffer := b })

/-- Model of array_trim_capacity (array.c lines 507-520).  allocOk tells
whether the mem_calloc call succeeds; on failure the unchecked memcpy
writes through NULL (none = undefined behavior).  The new buffer has
ar.size slots while max(size, 1) slots are copied into it. -/
def array_trim_capacity (ar : ArrayS) (allocOk : Bool) : Option ArrayS :=
  if ar.size = ar.capacity then
    some ar
  else if allocOk = false then
    none
  else
    let new_buff := List.replicate ar.size 0
    let cnt := if ar.size < 1 then 1 else ar.size
    match memcpyN new_buff ar.buffer cnt with
    | none => none
    | some b => some { ar with buffer := b, capacity := ar.size }

/-- Model of array_iter_init (array.c lines 647-651). -/
def array_iter_init (ar : ArrayS) : ArrayIter :=
  { ar := ar, index := 0 }

/-- Model of array_iter_next (array.c lines 672-675): unchecked buffer
read at the current index, then the index is incremented. -/
def array_iter_next (it : ArrayIter) : Option (Nat × ArrayIter) :=
  match it.ar.buffer.get? it.index with
  | none => none
  | some e => some (e, { it with index := (it.index + 1) % U64 })

/-- Model of array_iter_add (array.c lines 700-703): array_add_at at the
current index; the post-increment bumps the index whether or not the
insertion succeeded. -/
def array_iter_add (it : ArrayIter) (element : Nat) (allocOk : Bool) :
    Option (Bool × ArrayIter) :=
  match array_add_at it.ar element it.index allocOk with
  | none => none
  | some (ok, ar1) => some (ok, { ar := ar1, index := (it.index + 1) % U64 })

/-- Run of a sequence of array_add calls, each with its element and its
allocator outcome; stops with the first failed add, none marks undefined
behavior. -/
def addAll : ArrayS → List (Nat × Bool) → Option (Bool × ArrayS)
  | ar, [] => some (true, ar)
  | ar, (e, ok) :: rest =>
    match array_add ar e ok with
    | none => none
    | some (false, ar1) => some (false, ar1)
    | some (true, ar1) => addAll ar1 rest

/-- Run of the cursor scenario: init, next, iter_add (allocator would
succeed), next; yields the two yielded handles, the insertion result and
the final array. -/
def iterScenario (ar : ArrayS) (x : Nat) : Option (Nat × Nat × Bool × ArrayS) :=
  match array_iter_next (array_iter_init ar) with
  | none => none
  | some (e1, it1) =>
    match array_iter_add it1 x true with
    | none => none
    | some (ok, it2) =>
      match array_iter_next it2 with
      | none => none
      | some (e2, it3) => some (e1, e2, ok, it3.ar)

theorem memcpyN_some (dest src : List Nat) (k : Nat) (b : List Nat)
    (h : memcpyN dest src k = some b) :
    k ≤ src.length ∧ k ≤ dest.length ∧ b = src.take k ++ dest.drop k := by
  unfold memcpyN at h
  split at h
  · rename_i hc
    injection h with h
    exact ⟨hc.1, hc.2, h.symm⟩
  · exact absurd h (by simp)

theorem take_of_take_append (src rest : List Nat) (k : Nat) (h : k ≤ src.length) :
    (src.take k ++ rest).take k = src.take k := by
  have hlen : (src.take k).length = k := by
    rw [List.length_take]; omega
  calc (src.take k ++ rest).take k
      = (src.take k ++ rest).take (src.take k).length := by rw [hlen]
    _ = src.take k := List.take_left _ _

theorem take_succ_set (l : List Nat) (n : Nat) (a : Nat) (h : n < l.length) :
    (l.set n a).take (n + 1) = l.take n ++ [a] := by
  induction l generalizing n with
  | nil => simp at h
  | cons x xs ih =>
    cases n with
    | zero => simp
    | succ m =>
      simp only [List.set, List.take, List.cons_append, List.cons.injEq, true_and]
      exact ih m (by simpa using h)

theorem expand_capacity_true (ar : ArrayS) (ok : Bool) (ar1 : ArrayS)
    (h : expand_capacity ar ok = some (true, ar1)) :
    ar1.size = ar.size ∧ ar.size ≤ ar1.buffer.length ∧
    ar1.buffer.take ar.size = ar.buffer.take ar.size := by
  simp only [expand_capacity] at h
  split at h
  · simp at h
  · cases ok with
    | false => simp at h
    | true =>
      rw [if_pos rfl] at h
      cases hm : memcpyN (List.replicate (growCapacity ar.capacity ar.exp_factor) 0)
          ar.buffer ar.size with
      | none => rw [hm] at h; simp at h
      | some b =>
        rw [hm] at h
        obtain ⟨hle1, hle2, hb⟩ := memcpyN_some _ _ _ _ hm
        injection h with h
        injection h with hok h
        subst h
        subst hb
        refine ⟨?_, ?_, ?_⟩
        · dsimp only
          split <;> rfl
        · dsimp only
          rw [List.length_append, List.length_take]
          omega
        · dsimp only
          exact take_of_take_append _ _ _ hle1

theorem array_add_true (ar : ArrayS) (e : Nat) (ok : Bool) (ar1 : ArrayS)
    (h : array_add ar e ok = some (true, ar1)) :
    ar1.size = (ar.size + 1) % U64 ∧
    ar1.buffer.take (ar.size + 1) = ar.buffer.take ar.size ++ [e] := by
  unfold array_add at h
  cases hs : (if ar.capacity ≤ ar.size then expand_capacity ar ok else some (true, ar)) with
  | none => rw [hs] at h; simp at h
  | some p =>
    rw [hs] at h
    obtain ⟨okb, ar2⟩ := p
    cases okb with
    | false => simp at h
    | true =>
      have h2 : ar2.size = ar.size ∧ ar2.buffer.take ar.size = ar.buffer.take ar.size := by
        by_cases hc : ar.capacity ≤ ar.size
        · rw [if_pos hc] at hs
          have hx := expand_capacity_true ar ok ar2 hs
          exact ⟨hx.1, hx.2.2⟩
        · rw [if_neg hc] at hs
          injection hs with hs
          injection hs with hok hs
          subst hs
          exact ⟨rfl, rfl⟩
      dsimp only at h
      split at h
      · rename_i hlt
        injection h with h
        injection h with hok h
        subst h
        constructor
        · show (ar2.size + 1) % U64 = (ar.size + 1) % U64
          rw [h2.1]
        · show (ar2.buffer.set ar2.size e).take (ar.size + 1) = ar.buffer.take ar.size ++ [e]
          rw [← h2.1, take_succ_set _ _ _ hlt, h2.1, h2.2]
      · exact absurd h (by simp)

theorem addAll_true (es : List (Nat × Bool)) :
    ∀ (ar arN : ArrayS) (pre : List Nat),
      ar.size = pre.length →
      ar.buffer.take pre.length = pre →
      pre.length + es.length ≤ MAX_ELEMENTS →
      addAll ar es = some (true, arN) →
      arN.size = pre.length + es.length ∧
      arN.buffer.take (pre.length + es.length) = pre ++ es.map Prod.fst := by
  induction es with
  | nil =>
    intro ar arN pre h1 h2 _ hrun
    simp only [addAll] at hrun
    injection hrun with hrun
    injection hrun with hok hrun
    subst hrun
    simpa [h1] using h2
  | cons p rest ih =>
    obtain ⟨e, ok⟩ := p
    intro ar arN pre h1 h2 hle hrun
    rw [addAll] at hrun
    cases hadd : array_add ar e ok with
    | none => rw [hadd] at hrun; simp at hrun
    | some q =>
      rw [hadd] at hrun
      obtain ⟨okb, ar1⟩ := q
      cases okb with
      | false => simp at hrun
      | true =>
        have hmax : pre.length + 1 < U64 := by
          unfold MAX_ELEMENTS U64 at hle
          unfold U64
          simp only [List.length_cons] at hle
          omega
        obtain ⟨hsz, htake⟩ := array_add_true ar e ok ar1 hadd
        rw [h1] at hsz htake
        rw [Nat.mod_eq_of_lt hmax] at hsz
        have hrec := ih ar1 arN (pre ++ [e])
          (by rw [hsz]; simp)
          (by simpa [h2] using htake)
          (by simp only [List.length_append, List.length_cons, List.length_nil] at hle ⊢; omega)
          hrun
        simp only [List.length_append, List.length_cons, List.length_nil] at hrec
        constructor
        · rw [hrec.1]; simp only [List.length_cons]; omega
        · have hq := hrec.2
          rw [show pre.length + (0 + 1) + rest.length
                = pre.length + (rest.length + 1) from by omega] at hq
          simpa [List.append_assoc] using hq

/-- C1: for every sequence of successful array_add calls on a freshly
constructed array, not exceeding MAX_ELEMENTS elements, the resulting size
equals the number of adds and array_get i returns the i-th added handle for
every i below the number of adds. -/
theorem array_add_sequence_spec (es : List (Nat × Bool)) (ar0 arN : ArrayS)
    (h0 : array_new = some ar0)
    (hlen : es.length ≤ MAX_ELEMENTS)
    (hrun : addAll ar0 es = some (true, arN)) :
    arN.size = es.length ∧
    ∀ i, (hi : i < es.length) → array_get arN i = some (es.get ⟨i, hi⟩).1 := by
  have hnew : array_new = some ⟨0, 8, 2, List.replicate 8 0⟩ := by decide
  rw [hnew] at h0
  injection h0 with h0
  subst h0
  have main := addAll_true es _ arN []
    (by rfl) (by rfl) (by simpa using hlen) hrun
  simp only [List.length_nil, Nat.zero_add, List.nil_append] at main
  refine ⟨main.1, ?_⟩
  intro i hi
  unfold array_get
  rw [if_neg (by rw [main.1]; omega)]
  have hg : (es.map Prod.fst).get? i = arN.buffer.get? i := by
    rw [← main.2]
    exact List.get?_take hi
  rw [← hg, List.get?_map, List.get?_eq_get hi]
  rfl

/-- Witness for C1: two adds of handles 5 and 7 on the freshly constructed
default array yield size 2 with get 0 = 5 and get 1 = 7. -/
theorem array_add_sequence_spec_witness :
    (array_new = some ⟨0, 8, 2, List.replicate 8 0⟩ ∧
     ([(5, true), (7, true)] : List (Nat × Bool)).length ≤ MAX_ELEMENTS ∧
     addAll ⟨0, 8, 2, List.replicate 8 0⟩ [(5, true), (7, true)] =
       some (true, ⟨2, 8, 2, [5, 7, 0, 0, 0, 0, 0, 0]⟩)) ∧
    ((⟨2, 8, 2, [5, 7, 0, 0, 0, 0, 0, 0]⟩ : ArrayS).size =
       ([(5, true), (7, true)] : List (Nat × Bool)).length ∧
     ∀ i, (hi : i < ([(5, true), (7, true)] : List (Nat × Bool)).length) →
       array_get ⟨2, 8, 2, [5, 7, 0, 0, 0, 0, 0, 0]⟩ i =
         some (([(5, true), (7, true)] : List (Nat × Bool)).get ⟨i, hi⟩).1) :=
  ⟨⟨by decide, by decide, by decide⟩,
   array_add_sequence_spec [(5, true), (7, true)] ⟨0, 8, 2, List.replicate 8 0⟩
     ⟨2, 8, 2, [5, 7, 0, 0, 0, 0, 0, 0]⟩ (by decide) (by decide) (by decide)⟩

/-- Reachability support: the full two-slot array used below arises from a
construction with capacity 2 and factor 2 followed by two successful adds. -/
theorem two_element_full_state_reachable :
    array_new_conf ⟨2, 2⟩ = some ⟨0, 2, 2, [0, 0]⟩ ∧
    addAll ⟨0, 2, 2, [0, 0]⟩ [(10, true), (20, true)] =
      some (true, ⟨2, 2, 2, [10, 20]⟩) := by
  decide

/-- Reachability support: the one-element state used below is the freshly
constructed default array after a single successful add. -/
theorem one_element_state_reachable :
    array_new = some ⟨0, 8, 2, List.replicate 8 0⟩ ∧
    addAll ⟨0, 8, 2, List.replicate 8 0⟩ [(10, true)] =
      some (true, ⟨1, 8, 2, [10, 0, 0, 0, 0, 0, 0, 0]⟩) := by
  decide

/-- C2 (code bug): on a full array of size 2, capacity 2, factor 2, an add
whose growth allocation fails returns false and leaves size and elements
unchanged, but the capacity field has already been mutated from 2 to 4,
because expand_capacity assigns capacity before testing the allocation
result.  The claim requires the prior state to be fully preserved. -/
theorem expand_failure_mutates_capacity :
    array_add ⟨2, 2, 2, [10, 20]⟩ 30 false = some (false, ⟨2, 4, 2, [10, 20]⟩) ∧
    (⟨2, 4, 2, [10, 20]⟩ : ArrayS).capacity ≠ (⟨2, 2, 2, [10, 20]⟩ : ArrayS).capacity := by
  decide

/-- C3 (code bug): on the freshly constructed empty default array,
array_add_at at index 0 succeeds and inserts the element, because the
bounds check index > size - 1 underflows when size = 0 and therefore
passes; the claim (and the function's own documentation) requires failure
for every index on an empty array. -/
theorem add_at_empty_array_succeeds :
    array_add_at ⟨0, 8, 2, List.replicate 8 0⟩ 42 0 true =
      some (true, ⟨1, 8, 2, [42, 0, 0, 0, 0, 0, 0, 0]⟩) := by
  decide

/-- C4 (code bug): on an array of size 1, array_subarray 0 1 is accepted
even though the inclusive end index equals size (the code checks e > size
instead of e >= size), and a two-element subarray containing the dead slot
is returned where the claim requires the NULL failure result. -/
theorem subarray_accepts_end_index_eq_size :
    array_subarray ⟨1, 8, 2, [10, 0, 0, 0, 0, 0, 0, 0]⟩ 0 1 true true =
      some (some ⟨2, 2, 0, [10, 0]⟩) := by
  decide

/-- C5 (code bug): reversing the two-element array [10, 20] performs no
swap at all, because the loop bound is (size - 1) / 2 = 0 instead of
size / 2 = 1; the element at index 0 stays 10 where the claim requires the
old element of index 1, namely 20. -/
theorem reverse_two_element_noop :
    array_reverse ⟨2, 8, 2, [10, 20, 0, 0, 0, 0, 0, 0]⟩ =
      some ⟨2, 8, 2, [10, 20, 0, 0, 0, 0, 0, 0]⟩ ∧
    array_get ⟨2, 8, 2, [10, 20, 0, 0, 0, 0, 0, 0]⟩ 0 = some 10 ∧
    (10 : Nat) ≠ 20 := by
  decide

/-- C6 (code bug): trimming an empty array of capacity 8 is undefined
behavior in the code: it callocs size = 0 slots, then memcpys
max(size, 1) = 1 slot into that zero-slot buffer (heap overflow), and the
capacity it assigns is size = 0, not the max(size, 1) = 1 the claim and the
function's own documentation require. -/
theorem trim_capacity_empty_overflow :
    array_trim_capacity ⟨0, 8, 2, List.replicate 8 0⟩ true = none := by
  decide

/-- C7 (code bug): a subarray of a factor-2 array has exp_factor 0, not a
value greater than 1, because array_subarray never assigns the exp_factor
field of the calloc-zeroed result struct, despite its documentation saying
the new array inherits the original's configuration. -/
theorem subarray_zero_growth_factor :
    array_subarray ⟨1, 8, 2, [10, 0, 0, 0, 0, 0, 0, 0]⟩ 0 0 true true =
      some (some ⟨1, 1, 0, [10]⟩) ∧
    ¬ (1 < (⟨1, 1, 0, [10]⟩ : ArrayS).exp_factor) := by
  decide

/-- C8: on every empty array, array_remove_last returns NULL and leaves the
array unchanged: the index size - 1 underflows to 2^64 - 1, which the range
check of array_remove_at rejects before any mutation. -/
theorem remove_last_empty_spec (ar : ArrayS) (h : ar.size = 0) :
    array_remove_last ar = some (0, ar) := by
  unfold array_remove_last array_remove_at
  rw [h]
  rw [if_pos (Nat.zero_le _)]

/-- Witness for C8: the freshly constructed empty default array. -/
theorem remove_last_empty_spec_witness :
    ((⟨0, 8, 2, List.replicate 8 0⟩ : ArrayS).size = 0) ∧
    array_remove_last ⟨0, 8, 2, List.replicate 8 0⟩ =
      some (0, ⟨0, 8, 2, List.replicate 8 0⟩) :=
  ⟨rfl, remove_last_empty_spec ⟨0, 8, 2, List.replicate 8 0⟩ rfl⟩

/-- C9: for a cursor initialized over a three-element array with live
elements a, b, c (one spare slot d plus any further slots rest), next
yields a, iter_add x succeeds, the following next yields b — the inserted
x is not revisited — and the final array has size 4 with live elements
[a, x, b, c]. -/
theorem iter_scenario_spec (a b c d x : Nat) (rest : List Nat) (ar : ArrayS)
    (hsz : ar.size = 3) (hbuf : ar.buffer = a :: b :: c :: d :: rest)
    (hcap : ar.capacity = 4 + rest.length) :
    ∃ arF : ArrayS, iterScenario ar x = some (a, b, true, arF) ∧
      arF.size = 4 ∧ arF.buffer.take 4 = [a, x, b, c] := by
  obtain ⟨sz, cap, f, buf⟩ := ar
  dsimp only at hsz hbuf hcap
  subst hsz; subst hbuf; subst hcap
  refine ⟨⟨4, 4 + rest.length, f, a :: x :: b :: c :: rest⟩, ?_, rfl, rfl⟩
  have s1 : array_iter_next (array_iter_init ⟨3, 4 + rest.length, f,
      a :: b :: c :: d :: rest⟩) =
      some (a, ⟨⟨3, 4 + rest.length, f, a :: b :: c :: d :: rest⟩, 1⟩) := by
    simp [array_iter_init, array_iter_next, U64]
  have hmm : memmoveShiftR (a :: b :: c :: d :: rest) 1 2 =
      some (a :: b :: b :: c :: rest) := by
    unfold memmoveShiftR
    rw [if_neg (by omega), if_pos (by simp only [List.length_cons]; omega)]
    simp
  have s2 : array_add_at ⟨3, 4 + rest.length, f, a :: b :: c :: d :: rest⟩ x 1 true =
      some (true, ⟨4, 4 + rest.length, f, a :: x :: b :: c :: rest⟩) := by
    unfold array_add_at
    dsimp only
    rw [show sub64 3 1 = 2 from by decide, if_neg (by omega),
      if_neg (show ¬ ((3 : Nat) = 4 + rest.length) from by omega)]
    dsimp only
    rw [show sub64 3 1 = 2 from by decide, hmm]
    dsimp only
    rw [if_pos (by simp only [List.length_cons]; omega)]
    simp [U64, List.set]
  have s3 : array_iter_next ⟨⟨4, 4 + rest.length, f, a :: x :: b :: c :: rest⟩, 2⟩ =
      some (b, ⟨⟨4, 4 + rest.length, f, a :: x :: b :: c :: rest⟩, 3⟩) := by
    simp [array_iter_next, U64]
  unfold iterScenario
  rw [s1]
  dsimp only
  unfold array_iter_add
  dsimp only
  rw [s2]
  dsimp only
  rw [show (1 + 1) % U64 = 2 from by decide]
  rw [s3]

/-- Witness for C9: the concrete cursor run over [1, 2, 3] inserting 9. -/
theorem iter_scenario_spec_witness :
    ((⟨3, 8, 2, [1, 2, 3, 0, 0, 0, 0, 0]⟩ : ArrayS).size = 3 ∧
     (⟨3, 8, 2, [1, 2, 3, 0, 0, 0, 0, 0]⟩ : ArrayS).buffer =
       1 :: 2 :: 3 :: 0 :: [0, 0, 0, 0] ∧
     (⟨3, 8, 2, [1, 2, 3, 0, 0, 0, 0, 0]⟩ : ArrayS).capacity =
       4 + ([0, 0, 0, 0] : List Nat).length) ∧
    (∃ arF : ArrayS,
      iterScenario ⟨3, 8, 2, [1, 2, 3, 0, 0, 0, 0, 0]⟩ 9 = some (1, 2, true, arF) ∧
      arF.size = 4 ∧ arF.buffer.take 4 = [1, 9, 2, 3]) :=
  ⟨⟨rfl, rfl, rfl⟩,
   iter_scenario_spec 1 2 3 0 9 [0, 0, 0, 0] ⟨3, 8, 2, [1, 2, 3, 0, 0, 0, 0, 0]⟩
     rfl rfl rfl⟩

/-- C10: for every cursor over a non-empty array that has yielded every
element (index = size), iter_add returns false — array_add_at rejects
index = size — and the array is unchanged, yet the cursor's index field is
still incremented by one. -/
theorem iter_add_exhausted_spec (it : ArrayIter) (e : Nat) (ok : Bool)
    (h1 : 1 ≤ it.ar.size) (h2 : it.index = it.ar.size)
    (h3 : it.ar.size ≤ MAX_ELEMENTS) :
    array_iter_add it e ok = some (false, ⟨it.ar, it.index + 1⟩) := by
  unfold array_iter_add array_add_at
  have hs : sub64 it.ar.size 1 < it.index := by
    rw [h2]
    unfold sub64
    rw [if_pos h1]
    omega
  rw [if_pos hs]
  dsimp only
  have hmod : (it.index + 1) % U64 = it.index + 1 := by
    rw [h2]
    unfold MAX_ELEMENTS U64 at h3
    unfold U64
    omega
  rw [hmod]

/-- Witness for C10: an exhausted cursor over the one-element array [7]. -/
theorem iter_add_exhausted_spec_witness :
    (1 ≤ (⟨⟨1, 8, 2, [7, 0, 0, 0, 0, 0, 0, 0]⟩, 1⟩ : ArrayIter).ar.size ∧
     (⟨⟨1, 8, 2, [7, 0, 0, 0, 0, 0, 0, 0]⟩, 1⟩ : ArrayIter).index =
       (⟨⟨1, 8, 2, [7, 0, 0, 0, 0, 0, 0, 0]⟩, 1⟩ : ArrayIter).ar.size ∧
     (⟨⟨1, 8, 2, [7, 0, 0, 0, 0, 0, 0, 0]⟩, 1⟩ : ArrayIter).ar.size ≤ MAX_ELEMENTS) ∧
    array_iter_add ⟨⟨1, 8, 2, [7, 0, 0, 0, 0, 0, 0, 0]⟩, 1⟩ 5 true =
      some (false, ⟨⟨1, 8, 2, [7, 0, 0, 0, 0, 0, 0, 0]⟩, 1 + 1⟩) :=
  ⟨⟨by decide, by decide, by decide⟩,
   iter_add_exhausted_spec ⟨⟨1, 8, 2, [7, 0, 0, 0, 0, 0, 0, 0]⟩, 1⟩ 5 true
     (by decide) (by decide) (by decide)⟩
